import Mathlib

/-!
Shallow embedding of the `io-oauth` crate (OAuth 2.0 authorization code
grant, version 2.0 modules) and verification of its specification claims.

Conventions of the embedding:
* Rust byte strings (`&[u8]`, `str`, `String`) are `List Nat`, each entry a
  byte value below 256.
* `std::time::SystemTime` is a `Nat` counting nanoseconds since an epoch;
  `SystemTime::elapsed` at observation time `now` succeeds with `now - t`
  exactly when `t ≤ now`.
* Randomness is abstracted: the random shuffle performed by the `rand`
  crate is passed in as an explicit permutation of the index range.
* Fallible Rust functions returning `Result<T, E>` become `Except E T`.
-/

namespace IoOauth

/-! ## PKCE (src/2.0/authorization-code-grant/pkce.rs) -/

/-- The 66-byte unreserved alphabet from `pkce.rs`:
`unreserved = ALPHA / DIGIT / "-" / "." / "_" / "~"`. -/
def UNRESERVED : List Nat := [
  0x41, 0x42, 0x43, 0x44, 0x45, 0x46, 0x47, 0x48, 0x49, 0x4A, 0x4B, 0x4C,
  0x4D, 0x4E, 0x4F, 0x50, 0x51, 0x52, 0x53, 0x54, 0x55, 0x56, 0x57, 0x58,
  0x59, 0x5A, 0x61, 0x62, 0x63, 0x64, 0x65, 0x66, 0x67, 0x68, 0x69, 0x6A,
  0x6B, 0x6C, 0x6D, 0x6E, 0x6F, 0x70, 0x71, 0x72, 0x73, 0x74, 0x75, 0x76,
  0x77, 0x78, 0x79, 0x7A, 0x30, 0x31, 0x32, 0x33, 0x34, 0x35, 0x36, 0x37,
  0x38, 0x39, 0x2D, 0x2E, 0x5F, 0x7E]

/-- Modelled from the `rand` crate documentation of
`IndexedRandom::choose_multiple`: it returns `min(amount, slice.len())`
distinct elements of the slice, in random order.  The randomness is
abstracted as `perm`, a permutation of the index range of the slice. -/
def chooseMultiple (slice : List Nat) (perm : List Nat) (amount : Nat) : List Nat :=
  (perm.map fun i => slice.getD i 0).take (min amount slice.length)

/-- Embeds `PkceCodeVerifier::new(size)` from `pkce.rs`: clamps `size` (a `u8`)
via `size.max(43).min(128)` and draws that many elements with
`UNRESERVED.choose_multiple`. -/
def pkceCodeVerifierNew (perm : List Nat) (size : Nat) : List Nat :=
  chooseMultiple UNRESERVED perm (min (max size 43) 128)

/-- Embeds `PkceCodeVerifier::default()` from `pkce.rs`: draws a 43-element
array with `UNRESERVED.choose_multiple_array::<43>` (which succeeds since
43 ≤ 66 and returns 43 distinct random elements). -/
def pkceCodeVerifierDefault (perm : List Nat) : List Nat :=
  chooseMultiple UNRESERVED perm 43

/-- The scan inside `<PkceCodeVerifier as FromStr>::from_str`: first byte
of the input that is not in `UNRESERVED`, if any. -/
def findInvalidByte : List Nat → Option Nat
  | [] => none
  | b :: rest => if b ∈ UNRESERVED then findInvalidByte rest else some b

/-- Embeds `<PkceCodeVerifier as FromStr>::from_str` from `pkce.rs`: fails with
the first byte not in `UNRESERVED`, otherwise wraps the input bytes. -/
def pkceCodeVerifierFromStr (s : List Nat) : Except Nat (List Nat) :=
  match findInvalidByte s with
  | some b => .error b
  | none => .ok s

/-- Bytes of an ASCII/UTF-8 string literal. -/
def strBytes (s : String) : List Nat := s.data.map Char.toNat

/-! ## SHA-256 and base64url (the `sha2` and `base64` collaborator
crates), needed by `PkceCodeChallenge::encode` -/

/-- Truncation to a 32-bit word. -/
def w32 (n : Nat) : Nat := n % 4294967296

/-- Rotates a 32-bit word right by `n` positions, in plain arithmetic. -/
def rotr32 (n x : Nat) : Nat := w32 (x / 2 ^ n + x % 2 ^ n * 2 ^ (32 - n))

/-- Complement of a 32-bit word. -/
def not32 (x : Nat) : Nat := x ^^^ 4294967295

def sha256Ch (x y z : Nat) : Nat := (x &&& y) ^^^ (not32 x &&& z)

def sha256Maj (x y z : Nat) : Nat := (x &&& y) ^^^ (x &&& z) ^^^ (y &&& z)

def bigSigma0 (x : Nat) : Nat := rotr32 2 x ^^^ rotr32 13 x ^^^ rotr32 22 x

def bigSigma1 (x : Nat) : Nat := rotr32 6 x ^^^ rotr32 11 x ^^^ rotr32 25 x

def smallSigma0 (x : Nat) : Nat := rotr32 7 x ^^^ rotr32 18 x ^^^ x / 2 ^ 3

def smallSigma1 (x : Nat) : Nat := rotr32 17 x ^^^ rotr32 19 x ^^^ x / 2 ^ 10

/-- The 64 SHA-256 round constants. -/
def sha256K : List Nat := [
  1116352408, 1899447441, 3049323471, 3921009573, 961987163,
  1508970993, 2453635748, 2870763221, 3624381080, 310598401,
  607225278, 1426881987, 1925078388, 2162078206, 2614888103,
  3248222580, 3835390401, 4022224774, 264347078, 604807628,
  770255983, 1249150122, 1555081692, 1996064986, 2554220882,
  2821834349, 2952996808, 3210313671, 3336571891, 3584528711,
  113926993, 338241895, 666307205, 773529912, 1294757372,
  1396182291, 1695183700, 1986661051, 2177026350, 2456956037,
  2730485921, 2820302411, 3259730800, 3345764771, 3516065817,
  3600352804, 4094571909, 275423344, 430227734, 506948616,
  659060556, 883997877, 958139571, 1322822218, 1537002063,
  1747873779, 1955562222, 2024104815, 2227730452, 2361852424,
  2428436474, 2756734187, 3204031479, 3329325298]

/-- The SHA-256 initial hash value. -/
def sha256InitH : List Nat := [
  1779033703, 3144134277, 1013904242, 2773480762,
  1359893119, 2600822924, 528734635, 1541459225]

/-- Big-endian byte rendering of `v` on `n` bytes. -/
def beBytes (n v : Nat) : List Nat :=
  (List.range n).map fun i => v / 256 ^ (n - 1 - i) % 256

/-- SHA-256 message padding: append `0x80`, zero bytes up to 56 mod 64,
then the bit length on 8 big-endian bytes. -/
def sha256Pad (msg : List Nat) : List Nat :=
  msg ++ [128] ++ List.replicate ((64 - (msg.length + 9) % 64) % 64) 0
    ++ beBytes 8 (8 * msg.length)

/-- Groups bytes into big-endian 32-bit words. -/
def toWords32 : List Nat → List Nat
  | a :: b :: c :: d :: rest => (((a * 256 + b) * 256 + c) * 256 + d) :: toWords32 rest
  | _ => []

/-- Groups a word list into 16-word blocks (the input, a padded SHA-256
message, always holds a multiple of 16 words). -/
def chunk16 : List Nat → List (List Nat)
  | [] => []
  | w0 :: w1 :: w2 :: w3 :: w4 :: w5 :: w6 :: w7 ::
      w8 :: w9 :: w10 :: w11 :: w12 :: w13 :: w14 :: w15 :: rest =>
    [w0, w1, w2, w3, w4, w5, w6, w7, w8, w9, w10, w11, w12, w13, w14, w15]
      :: chunk16 rest
  | ws => [ws]

/-- Extends the 16 words of a block to the 64-word message schedule. -/
def sha256Schedule (block : List Nat) : List Nat :=
  (List.range 48).foldl (fun acc i =>
    acc ++ [w32 (smallSigma1 (acc.getD (i + 14) 0) + acc.getD (i + 9) 0 +
      smallSigma0 (acc.getD (i + 1) 0) + acc.getD i 0)]) block

/-- One SHA-256 compression step over a 16-word block. -/
def sha256Compress (h : List Nat) (block : List Nat) : List Nat :=
  let ws := sha256Schedule block
  let st := (List.range 64).foldl
    (fun (st : Nat × Nat × Nat × Nat × Nat × Nat × Nat × Nat) i =>
      let t1 := w32 (st.2.2.2.2.2.2.2 + bigSigma1 st.2.2.2.2.1 +
        sha256Ch st.2.2.2.2.1 st.2.2.2.2.2.1 st.2.2.2.2.2.2.1 +
        sha256K.getD i 0 + ws.getD i 0)
      let t2 := w32 (bigSigma0 st.1 + sha256Maj st.1 st.2.1 st.2.2.1)
      (w32 (t1 + t2), st.1, st.2.1, st.2.2.1, w32 (st.2.2.2.1 + t1),
        st.2.2.2.2.1, st.2.2.2.2.2.1, st.2.2.2.2.2.2.1))
    (h.getD 0 0, h.getD 1 0, h.getD 2 0, h.getD 3 0,
      h.getD 4 0, h.getD 5 0, h.getD 6 0, h.getD 7 0)
  [w32 (h.getD 0 0 + st.1), w32 (h.getD 1 0 + st.2.1),
    w32 (h.getD 2 0 + st.2.2.1), w32 (h.getD 3 0 + st.2.2.2.1),
    w32 (h.getD 4 0 + st.2.2.2.2.1), w32 (h.getD 5 0 + st.2.2.2.2.2.1),
    w32 (h.getD 6 0 + st.2.2.2.2.2.2.1), w32 (h.getD 7 0 + st.2.2.2.2.2.2.2)]

/-- Embeds `Sha256::digest`: the 32 digest bytes of a byte string. -/
def sha256 (msg : List Nat) : List Nat :=
  (((chunk16 (toWords32 (sha256Pad msg))).foldl sha256Compress sha256InitH).map
    fun w => beBytes 4 w).flatten

/-- The base64url alphabet (`A-Z a-z 0-9 - _`). -/
def b64UrlAlphabet : List Nat :=
  strBytes (r"ABCDEFGHIJKLMNOPQRSTUVWXYZabcdefghijklmnopqrstuvwxyz0123456789-_")

def b64UrlChar (n : Nat) : Nat := b64UrlAlphabet.getD n 0

/-- Embeds `BASE64_URL_SAFE_NO_PAD.encode`: base64url without padding. -/
def base64UrlNoPad : List Nat → List Nat
  | [] => []
  | [a] => [b64UrlChar (a / 4), b64UrlChar (a % 4 * 16)]
  | [a, b] => [b64UrlChar (a / 4), b64UrlChar (a % 4 * 16 + b / 16),
      b64UrlChar (b % 16 * 4)]
  | a :: b :: c :: rest =>
      b64UrlChar (a / 4) :: b64UrlChar (a % 4 * 16 + b / 16) ::
      b64UrlChar (b % 16 * 4 + c / 64) :: b64UrlChar (c % 64) :: base64UrlNoPad rest

/-! ## PKCE code challenge (src/2.0/authorization-code-grant/pkce.rs) -/

/-- Embeds `PkceCodeChallengeMethod` from `pkce.rs` (`Plain` or `Sha256`;
`Sha256` is the `Default`). -/
inductive PkceCodeChallengeMethod where
  | plain
  | s256
deriving DecidableEq

/-- Embeds `PkceCodeChallengeMethod::as_str` from `pkce.rs`. -/
def pkceCodeChallengeMethodAsStr : PkceCodeChallengeMethod → List Nat
  | .plain => strBytes (r"plain")
  | .s256 => strBytes (r"S256")

/-- Embeds `PkceCodeChallenge` from `pkce.rs`: a method and (the bytes of) the
wrapped code verifier. -/
structure PkceCodeChallenge where
  method : PkceCodeChallengeMethod
  verifier : List Nat
deriving DecidableEq

/-- Embeds `PkceCodeChallenge::encode` from `pkce.rs`.  The `Plain` arm applies
`String::from_utf8_lossy` to the verifier bytes, which is the identity on
valid UTF-8 input; every verifier byte produced by this crate lies in the
ASCII alphabet `UNRESERVED`, so the arm is embedded as the identity. -/
def pkceCodeChallengeEncode (c : PkceCodeChallenge) : List Nat :=
  match c.method with
  | .plain => c.verifier
  | .s256 => base64UrlNoPad (sha256 c.verifier)

/-! ## Form-urlencoded serialization (the `url::form_urlencoded`
collaborator crate) -/

/-- The bytes that `url::form_urlencoded` leaves unchanged:
alphanumerics and `*-._`. -/
def formUrlUnchanged (b : Nat) : Bool :=
  decide (b = 42 ∨ b = 45 ∨ b = 46 ∨ (48 ≤ b ∧ b ≤ 57) ∨ (65 ≤ b ∧ b ≤ 90) ∨
    b = 95 ∨ (97 ≤ b ∧ b ≤ 122))

/-- Upper-case hexadecimal digit of a value below 16. -/
def hexUpperDigit (n : Nat) : Nat := if n < 10 then 48 + n else 55 + n

/-- Form-urlencoded serialization of one byte: space becomes `+`,
unchanged bytes pass through, the rest is percent-escaped. -/
def serializeByte (b : Nat) : List Nat :=
  if b = 32 then [43]
  else if formUrlUnchanged b then [b]
  else [37, hexUpperDigit (b / 16), hexUpperDigit (b % 16)]

/-- Form-urlencoded serialization of a byte string. -/
def formUrlEncode (s : List Nat) : List Nat := (s.map serializeByte).flatten

def isHexDigitByte (c : Nat) : Bool :=
  decide ((48 ≤ c ∧ c ≤ 57) ∨ (65 ≤ c ∧ c ≤ 70) ∨ (97 ≤ c ∧ c ≤ 102))

def hexVal (c : Nat) : Nat :=
  if c ≤ 57 then c - 48 else if c ≤ 70 then c - 55 else c - 87

/-- Form-urlencoded decoding of a byte string: `+` becomes a space, a
`%` followed by two hexadecimal digits becomes the escaped byte, and
everything else (including a malformed escape) passes through. -/
def percentDecode : List Nat → List Nat
  | [] => []
  | 37 :: h :: l :: rest =>
    if isHexDigitByte h && isHexDigitByte l then
      (hexVal h * 16 + hexVal l) :: percentDecode rest
    else 37 :: percentDecode (h :: l :: rest)
  | 43 :: rest => 32 :: percentDecode rest
  | b :: rest => b :: percentDecode rest

/-! ## Authorization request
(src/2.0/authorization-code-grant/authorization-request.rs) -/

/-- Modelled from the spec: the anti-CSRF `State` (its source file,
`state.rs`, is not among the analysed sources) is an opaque byte string
and `State::expose` yields its raw bytes. -/
def stateExpose (s : List Nat) : List Nat := s

/-- Embeds `String::from_utf8_lossy` as the identity; this is
faithful exactly on valid UTF-8 byte strings (in particular on ASCII
ones), and the claims about state round-tripping carry an ASCII
hypothesis accordingly. -/
def fromUtf8Lossy (s : List Nat) : List Nat := s

/-- Embeds `AuthorizationRequestParams` from `authorization-request.rs`; the
`HashSet` of scope tokens is embedded as the list of its elements in the
enumeration order of the set. -/
structure AuthorizationRequestParams where
  client_id : List Nat
  redirect_uri : Option (List Nat)
  scope : List (List Nat)
  state : Option (List Nat)
  pkce_code_challenge : Option PkceCodeChallenge

/-- The scope-joining loop of `to_form_url_encoded_serializer`: starts
with an empty string and an empty glue, appends `glue + token` for each
token and sets the glue to a single space. -/
def spaceJoinGlueLoop (tokens : List (List Nat)) : List Nat :=
  (tokens.foldl (fun (acc : List Nat × List Nat) t => (acc.1 ++ acc.2 ++ t, [32]))
    ([], [])).1

/-- The ordered key/value pairs appended by
`AuthorizationRequestParams::to_form_url_encoded_serializer`. -/
def authorizationRequestPairs (p : AuthorizationRequestParams) :
    List (List Nat × List Nat) :=
  [(strBytes (r"response_type"), strBytes (r"code")),
    (strBytes (r"client_id"), p.client_id)]
  ++ (match p.state with
      | some s => [(strBytes (r"state"), fromUtf8Lossy (stateExpose s))]
      | none => [])
  ++ (match p.redirect_uri with
      | some u => [(strBytes (r"redirect_uri"), u)]
      | none => [])
  ++ (if p.scope.isEmpty then []
      else [(strBytes (r"scope"), spaceJoinGlueLoop p.scope)])
  ++ (match p.pkce_code_challenge with
      | some c => [(strBytes (r"code_challenge"), pkceCodeChallengeEncode c),
          (strBytes (r"code_challenge_method"),
            pkceCodeChallengeMethodAsStr c.method)]
      | none => [])

/-- Embeds `Serializer::append_pair`: the encoded key, `=`, the encoded value. -/
def appendPairBytes (k v : List Nat) : List Nat :=
  formUrlEncode k ++ [61] ++ formUrlEncode v

/-- Embeds `AuthorizationRequestParams::to_form_url_encoded_string`: the
appended pairs, each rendered by `append_pair`, glued with `&`. -/
def toFormUrlEncodedString (p : AuthorizationRequestParams) : List Nat :=
  List.intercalate [38]
    ((authorizationRequestPairs p).map fun kv => appendPairBytes kv.1 kv.2)

/-- The sample request of end-to-end scenario A in the spec: client id
`cid`, scope `{read, write}`, state `s1`, no PKCE. -/
def sampleAuthRequestParams : AuthorizationRequestParams :=
  { client_id := strBytes (r"cid"), redirect_uri := none,
    scope := [strBytes (r"read"), strBytes (r"write")],
    state := some (strBytes (r"s1")), pkce_code_challenge := none }

/-! ## Issuing an access token (src/2.0/issue-access-token.rs) -/

/-- Embeds `IssueAccessTokenErrorCode` from `issue-access-token.rs`: the closed
enum of RFC 6749 §5.2 error codes. -/
inductive IssueAccessTokenErrorCode where
  | invalidClient
  | invalidGrant
  | invalidRequest
  | invalidScope
  | unauthorizedClient
  | unsupportedGrantType
deriving DecidableEq

/-- Embeds `IssueAccessTokenSuccessParams` from `issue-access-token.rs`.
`issued_at` is a `SystemTime`, counted here in nanoseconds. -/
structure IssueAccessTokenSuccessParams where
  access_token : List Nat
  token_type : List Nat
  expires_in : Option Nat
  refresh_token : Option (List Nat)
  scope : Option (List Nat)
  issued_at : Nat
deriving DecidableEq

/-- Embeds `IssueAccessTokenErrorParams` from `issue-access-token.rs`. -/
structure IssueAccessTokenErrorParams where
  error : IssueAccessTokenErrorCode
  error_description : Option (List Nat)
  error_uri : Option (List Nat)
deriving DecidableEq

/-- Embeds `SystemTime::elapsed` observed at time `now` (nanoseconds): succeeds
with the elapsed duration unless the origin lies in the future. -/
def systemTimeElapsed (t now : Nat) : Except Unit Nat :=
  if t ≤ now then .ok (now - t) else .error ()

/-- Embeds `Duration::as_secs` for a duration given in nanoseconds. -/
def durationAsSecs (ns : Nat) : Nat := ns / 1000000000

/-- Embeds `IssueAccessTokenSuccessParams::sync_expires_in` from
`issue-access-token.rs`, observed at time `now`: returns early (leaving
the params unchanged) when `expires_in` is `None` or `issued_at.elapsed()`
fails; otherwise performs `*expires_in -= elapsed.min(*expires_in)`. -/
def syncExpiresIn (p : IssueAccessTokenSuccessParams) (now : Nat) :
    IssueAccessTokenSuccessParams :=
  match p.expires_in with
  | none => p
  | some e =>
    match systemTimeElapsed p.issued_at now with
    | .error _ => p
    | .ok ns =>
      let elapsed := durationAsSecs ns
      { p with expires_in := some (e - min elapsed e) }

/-! ## The token-exchange coroutines
(src/2.0/authorization-code-grant/access-token-request.rs and
src/2.0/refresh-access-token.rs) -/

/-- The `io_stream::Io` request propagated by the inner `Send` coroutine
(an external collaborator): a pending read or write of raw bytes. -/
inductive IoOp where
  | read : List Nat → IoOp
  | write : List Nat → IoOp
deriving DecidableEq

/-- An HTTP response as produced by the inner `io_http` `Send` coroutine:
a status code and a body. -/
structure HttpResponse where
  status : Nat
  body : List Nat
deriving DecidableEq

/-- A `serde_json::Error` value; the code never inspects it, only moves
it around, so an abstract tag suffices. -/
structure SerdeError where
  tag : Nat
deriving DecidableEq

/-- Embeds `http::StatusCode::is_success`: status in `200..=299`. -/
def isSuccessStatus (s : Nat) : Bool := 200 ≤ s && s ≤ 299

/-- The result type of both `resume` functions:
`Result<serde_json::Result<AccessTokenResponse>, Io>` where
`AccessTokenResponse = Result<IssueAccessTokenSuccessParams, IssueAccessTokenErrorParams>`. -/
abbrev ResumeResult :=
  Except IoOp (Except SerdeError
    (Except IssueAccessTokenErrorParams IssueAccessTokenSuccessParams))

/-- Embeds `SendAccessTokenRequest::resume` from `access-token-request.rs`.
`inner` is the outcome of `self.0.resume(input)` (the external `io_http`
`Send` coroutine): either a pending I/O request, propagated by `?`, or a
terminal HTTP response.  JSON deserialization (`serde_json::from_slice`,
an external collaborator) is abstracted as the two parser arguments. -/
def sendAccessTokenRequestResume
    (parseSuccess : List Nat → Except SerdeError IssueAccessTokenSuccessParams)
    (parseErr : List Nat → Except SerdeError IssueAccessTokenErrorParams)
    (inner : Except IoOp HttpResponse) : ResumeResult :=
  match inner with
  | .error pending => .error pending
  | .ok response =>
    if isSuccessStatus response.status then
      match parseSuccess response.body with
      | .ok res => .ok (.ok (.ok res))
      | .error err => .ok (.error err)
    else
      match parseErr response.body with
      | .ok res => .ok (.ok (.error res))
      | .error err => .ok (.error err)

/-- A sample success-params value, used by witnesses. -/
def sampleSuccessParams : IssueAccessTokenSuccessParams :=
  { access_token := [], token_type := [], expires_in := none,
    refresh_token := none, scope := none, issued_at := 0 }

/-- A sample success-params value carrying `expires_in = 3600` and
`issued_at = 0`, used by witnesses and counterexamples. -/
def sampleExpiringParams : IssueAccessTokenSuccessParams :=
  { access_token := [], token_type := [], expires_in := some 3600,
    refresh_token := none, scope := none, issued_at := 0 }

/-- A sample success parser that always succeeds, used by witnesses. -/
def sampleParseSuccess : List Nat → Except SerdeError IssueAccessTokenSuccessParams :=
  fun _ => .ok sampleSuccessParams

/-- A sample error parser that always fails, used by witnesses. -/
def sampleParseErr : List Nat → Except SerdeError IssueAccessTokenErrorParams :=
  fun _ => .error { tag := 0 }

/-- Embeds `RefreshAccessToken::resume` from `refresh-access-token.rs`, embedded
the same way as [`sendAccessTokenRequestResume`]. -/
def refreshAccessTokenResume
    (parseSuccess : List Nat → Except SerdeError IssueAccessTokenSuccessParams)
    (parseErr : List Nat → Except SerdeError IssueAccessTokenErrorParams)
    (inner : Except IoOp HttpResponse) : ResumeResult :=
  match inner with
  | .error pending => .error pending
  | .ok response =>
    if isSuccessStatus response.status then
      match parseSuccess response.body with
      | .ok res => .ok (.ok (.ok res))
      | .error err => .ok (.error err)
    else
      match parseErr response.body with
      | .ok res => .ok (.ok (.error res))
      | .error err => .ok (.error err)

end IoOauth

namespace IoOauth

/-! Basic facts about the PKCE alphabet and sampling. -/

theorem unreserved_nodup : UNRESERVED.Nodup := by decide

theorem unreserved_length : UNRESERVED.length = 66 := by decide

theorem chooseMultiple_length (slice perm : List Nat) (amount : Nat)
    (hp : perm.Perm (List.range slice.length)) :
    (chooseMultiple slice perm amount).length = min amount slice.length := by
  unfold chooseMultiple
  rw [List.length_take, List.length_map, hp.length_eq, List.length_range]
  omega

theorem map_getD_range (l : List Nat) :
    (List.range l.length).map (fun i => l.getD i 0) = l := by
  apply List.ext_getElem
  · simp
  · intro i h1 h2
    simp only [List.getElem_map, List.getElem_range]
    exact List.getD_eq_getElem l 0 h2

theorem chooseMultiple_perm (slice perm : List Nat) (amount : Nat)
    (hp : perm.Perm (List.range slice.length)) (ha : slice.length ≤ amount) :
    (chooseMultiple slice perm amount).Perm slice := by
  unfold chooseMultiple
  rw [min_eq_right ha, List.take_of_length_le (by rw [List.length_map, hp.length_eq, List.length_range])]
  have h1 : (perm.map fun i => slice.getD i 0).Perm
      ((List.range slice.length).map fun i => slice.getD i 0) := hp.map _
  rwa [map_getD_range] at h1

theorem chooseMultiple_mem (slice perm : List Nat) (amount : Nat)
    (hp : perm.Perm (List.range slice.length)) :
    ∀ b ∈ chooseMultiple slice perm amount, b ∈ slice := by
  intro b hb
  unfold chooseMultiple at hb
  have hb' := List.mem_of_mem_take hb
  obtain ⟨i, hi, rfl⟩ := List.mem_map.mp hb'
  have : i ∈ List.range slice.length := hp.mem_iff.mp hi
  have hilt : i < slice.length := List.mem_range.mp this
  rw [List.getD_eq_getElem slice 0 hilt]
  exact List.getElem_mem hilt

theorem chooseMultiple_nodup (slice perm : List Nat) (amount : Nat)
    (hp : perm.Perm (List.range slice.length)) (hnd : slice.Nodup) :
    (chooseMultiple slice perm amount).Nodup := by
  unfold chooseMultiple
  refine List.Sublist.nodup (List.take_sublist _ _) ?_
  apply List.Nodup.map_on
  · intro i hi j hj hij
    have hilt : i < slice.length := List.mem_range.mp (hp.mem_iff.mp hi)
    have hjlt : j < slice.length := List.mem_range.mp (hp.mem_iff.mp hj)
    rw [List.getD_eq_getElem slice 0 hilt, List.getD_eq_getElem slice 0 hjlt] at hij
    exact (hnd.getElem_inj_iff).mp hij
  · exact hp.symm.nodup (List.nodup_range _)

/-! Facts about the `FromStr` scan. -/

theorem findInvalidByte_none (s : List Nat) (h : findInvalidByte s = none) :
    ∀ b ∈ s, b ∈ UNRESERVED := by
  induction s with
  | nil => simp
  | cons b rest ih =>
    unfold findInvalidByte at h
    by_cases hb : b ∈ UNRESERVED
    · rw [if_pos hb] at h
      intro c hc
      rcases List.mem_cons.mp hc with rfl | hc
      · exact hb
      · exact ih h c hc
    · rw [if_neg hb] at h
      exact absurd h (by simp)

theorem findInvalidByte_some (s : List Nat) (b : Nat) (h : findInvalidByte s = some b) :
    b ∉ UNRESERVED ∧ b ∈ s := by
  induction s with
  | nil => simp [findInvalidByte] at h
  | cons c rest ih =>
    unfold findInvalidByte at h
    by_cases hc : c ∈ UNRESERVED
    · rw [if_pos hc] at h
      obtain ⟨h1, h2⟩ := ih h
      exact ⟨h1, List.mem_cons_of_mem c h2⟩
    · rw [if_neg hc] at h
      obtain rfl : c = b := by simpa using h
      exact ⟨hc, List.mem_cons_self c rest⟩

/-! Facts about form-urlencoded serialization. -/

theorem formUrlUnchanged_range (b : Nat) (h : formUrlUnchanged b = true) :
    b ≠ 32 ∧ b ≠ 37 ∧ b ≠ 38 ∧ b ≠ 43 ∧ b ≠ 61 := by
  unfold formUrlUnchanged at h
  rw [decide_eq_true_iff] at h
  omega

theorem hexUpperDigit_ge_48 (n : Nat) : 48 ≤ hexUpperDigit n := by
  unfold hexUpperDigit
  split <;> omega

theorem hexUpperDigit_ne_61 (n : Nat) : hexUpperDigit n ≠ 61 := by
  unfold hexUpperDigit
  split <;> omega

theorem not_mem_serializeByte (b c : Nat) (hc : c = 38 ∨ c = 61) :
    c ∉ serializeByte b := by
  unfold serializeByte
  split
  · simp
    omega
  · split
    next h =>
      have := formUrlUnchanged_range b h
      simp
      omega
    next =>
      have h1 := hexUpperDigit_ge_48 (b / 16)
      have h2 := hexUpperDigit_ge_48 (b % 16)
      have h3 := hexUpperDigit_ne_61 (b / 16)
      have h4 := hexUpperDigit_ne_61 (b % 16)
      simp
      omega

theorem not_mem_formUrlEncode (s : List Nat) (c : Nat) (hc : c = 38 ∨ c = 61) :
    c ∉ formUrlEncode s := by
  unfold formUrlEncode
  induction s with
  | nil => simp
  | cons b rest ih =>
    simp only [List.map_cons, List.flatten_cons, List.mem_append]
    rintro (h | h)
    · exact not_mem_serializeByte b c hc h
    · exact ih h

theorem amp_not_mem_appendPairBytes (k v : List Nat) :
    (38 : Nat) ∉ appendPairBytes k v := by
  unfold appendPairBytes
  simp only [List.mem_append, List.mem_singleton]
  rintro ((h | h) | h)
  · exact not_mem_formUrlEncode k 38 (Or.inl rfl) h
  · omega
  · exact not_mem_formUrlEncode v 38 (Or.inl rfl) h

/-- Splitting the output of `append_pair` on `=` recovers the encoded
key and the encoded value. -/
theorem appendPairBytes_splitOn (k v : List Nat) :
    (appendPairBytes k v).splitOn 61 = [formUrlEncode k, formUrlEncode v] := by
  have h : appendPairBytes k v = List.intercalate [61] [formUrlEncode k, formUrlEncode v] := by
    simp [appendPairBytes, List.intercalate, List.intersperse]
  rw [h]
  apply List.splitOn_intercalate
  · intro l hl
    simp only [List.mem_cons, List.mem_singleton, List.not_mem_nil, or_false] at hl
    rcases hl with rfl | rfl
    · exact not_mem_formUrlEncode k 61 (Or.inr rfl)
    · exact not_mem_formUrlEncode v 61 (Or.inr rfl)
  · simp

/-! Facts about form-urlencoded decoding. -/

theorem percentDecode_cons43 (rest : List Nat) :
    percentDecode (43 :: rest) = 32 :: percentDecode rest := rfl

theorem percentDecode_cons37 (h l : Nat) (rest : List Nat) :
    percentDecode (37 :: h :: l :: rest) =
      if isHexDigitByte h && isHexDigitByte l then
        (hexVal h * 16 + hexVal l) :: percentDecode rest
      else 37 :: percentDecode (h :: l :: rest) := rfl

theorem percentDecode_cons_other (b : Nat) (rest : List Nat)
    (h37 : b ≠ 37) (h43 : b ≠ 43) :
    percentDecode (b :: rest) = b :: percentDecode rest := by
  rw [percentDecode.eq_def]
  split <;> simp_all

theorem hexRoundTrip : ∀ n < 16,
    hexVal (hexUpperDigit n) = n ∧ isHexDigitByte (hexUpperDigit n) = true := by
  decide

/-- Form-urlencoded decoding inverts form-urlencoded serialization on
byte strings. -/
theorem percentDecode_formUrlEncode (s : List Nat) (hs : ∀ b ∈ s, b < 256) :
    percentDecode (formUrlEncode s) = s := by
  induction s with
  | nil => rfl
  | cons b rest ih =>
    have hb : b < 256 := hs b (List.mem_cons_self b rest)
    have hrest : percentDecode (formUrlEncode rest) = rest :=
      ih fun c hc => hs c (List.mem_cons_of_mem b hc)
    have henc : formUrlEncode (b :: rest) = serializeByte b ++ formUrlEncode rest := by
      simp [formUrlEncode]
    rw [henc]
    unfold serializeByte
    by_cases h32 : b = 32
    · rw [if_pos h32]
      subst h32
      simpa [percentDecode_cons43] using hrest
    · rw [if_neg h32]
      by_cases hu : formUrlUnchanged b = true
      · rw [if_pos hu]
        obtain ⟨-, hb37, -, hb43, -⟩ := formUrlUnchanged_range b hu
        simpa [percentDecode_cons_other b _ hb37 hb43] using hrest
      · rw [if_neg hu]
        have hhi := hexRoundTrip (b / 16) (by omega)
        have hlo := hexRoundTrip (b % 16) (by omega)
        simp only [List.cons_append, List.nil_append, percentDecode_cons37,
          hhi.2, hlo.2, Bool.and_self, if_pos]
        rw [hhi.1, hlo.1, hrest]
        congr 1
        omega

/-! Facts about the scope glue loop. -/

theorem spaceJoinGlueLoop_aux (ts : List (List Nat)) (a : List Nat) :
    (ts.foldl (fun (acc : List Nat × List Nat) t => (acc.1 ++ acc.2 ++ t, [32]))
      (a, [32])).1 = a ++ (ts.map fun t => 32 :: t).flatten := by
  induction ts generalizing a with
  | nil => simp
  | cons t ts ih =>
    simp only [List.foldl_cons, List.map_cons, List.flatten_cons]
    rw [ih]
    simp

theorem intercalate_space_cons (t : List Nat) (ts : List (List Nat)) :
    List.intercalate [32] (t :: ts) = t ++ (ts.map fun u => 32 :: u).flatten := by
  induction ts generalizing t with
  | nil => simp [List.intercalate]
  | cons u ts ih =>
    rw [List.intercalate, List.intersperse_cons_cons, List.flatten_cons,
      List.flatten_cons, ← List.intercalate]
    rw [ih u]
    simp

theorem spaceJoinGlueLoop_eq_intercalate (ts : List (List Nat)) (h : ts ≠ []) :
    spaceJoinGlueLoop ts = List.intercalate [32] ts := by
  cases ts with
  | nil => exact absurd rfl h
  | cons t ts =>
    unfold spaceJoinGlueLoop
    rw [List.foldl_cons]
    simp only [List.nil_append, List.append_nil]
    rw [spaceJoinGlueLoop_aux, intercalate_space_cons]

/-! ## The claims -/

/-- C1: the claim states that `PkceCodeVerifier::new(n)` always returns a
verifier of length `min(max(n,43),128)`.  The code cannot: it samples the
66-byte alphabet without replacement (`choose_multiple`), which caps the
result at 66 elements, although the code clamps the requested size to 128
and its own comment cites the RFC grammar `code-verifier = 43*128unreserved`.
At the failing input `new(128)` (any permutation; here the identity) the
verifier has 66 bytes where the claim requires `min(max(128,43),128) = 128`. -/
theorem claim1_new_length_divergence :
    (pkceCodeVerifierNew (List.range 66) 128).length = 66 ∧
    min (max 128 43) 128 = 128 ∧
    (List.range 66).Perm (List.range UNRESERVED.length) := by
  refine ⟨by decide, by decide, List.Perm.refl _⟩

/-- C2, counterexample: `sync_expires_in` does not advance `issued_at`,
so two calls at the same instant both subtract the seconds elapsed since
`issued_at`.  With `expires_in = 3600`, `issued_at = 0` and both calls at
t = 10 s, the first call stores 3590 but the second stores 3580. -/
theorem claim2_sync_twice_counterexample :
    ¬ (syncExpiresIn (syncExpiresIn sampleExpiringParams 10000000000) 10000000000
        = syncExpiresIn sampleExpiringParams 10000000000) := by
  decide

/-- C2, amended: calling `sync_expires_in` twice at the same instant
`now` makes the second call subtract the whole seconds elapsed since
`issued_at` a second time (the second call stores
`expires_in - 2·elapsed` instead of `expires_in - elapsed`); the second
call stores the same value as the first exactly when zero whole seconds
have elapsed since `issued_at`, or the elapsed seconds already exhaust
the original `expires_in`. -/
theorem claim2_sync_twice_amended (p : IssueAccessTokenSuccessParams) (now e : Nat)
    (he : p.expires_in = some e) (hle : p.issued_at ≤ now) :
    (syncExpiresIn (syncExpiresIn p now) now).expires_in
        = some (e - 2 * durationAsSecs (now - p.issued_at)) ∧
    ((syncExpiresIn (syncExpiresIn p now) now).expires_in
          = (syncExpiresIn p now).expires_in
      ↔ durationAsSecs (now - p.issued_at) = 0
        ∨ e ≤ durationAsSecs (now - p.issued_at)) := by
  have h1 : syncExpiresIn p now =
      { p with expires_in := some (e - min (durationAsSecs (now - p.issued_at)) e) } := by
    unfold syncExpiresIn systemTimeElapsed
    rw [he, if_pos hle]
  have h2 : syncExpiresIn (syncExpiresIn p now) now =
      { p with expires_in := some (e - min (durationAsSecs (now - p.issued_at)) e
          - min (durationAsSecs (now - p.issued_at))
              (e - min (durationAsSecs (now - p.issued_at)) e)) } := by
    rw [h1]
    unfold syncExpiresIn systemTimeElapsed
    simp only [if_pos hle]
  rw [h2, h1]
  simp only [Option.some.injEq]
  constructor
  · omega
  · constructor
    · intro h
      omega
    · intro h
      omega

/-- C2, amended, witness at `expires_in = 3600`, `issued_at = 0`,
both calls at t = 10 s. -/
theorem claim2_sync_twice_amended_witness :
    (sampleExpiringParams.expires_in = some 3600
      ∧ sampleExpiringParams.issued_at ≤ 10000000000) ∧
    ((syncExpiresIn (syncExpiresIn sampleExpiringParams 10000000000)
        10000000000).expires_in
      = some (3600 - 2 * durationAsSecs (10000000000 - sampleExpiringParams.issued_at)) ∧
    ((syncExpiresIn (syncExpiresIn sampleExpiringParams 10000000000)
        10000000000).expires_in
      = (syncExpiresIn sampleExpiringParams 10000000000).expires_in
      ↔ durationAsSecs (10000000000 - sampleExpiringParams.issued_at) = 0
        ∨ 3600 ≤ durationAsSecs (10000000000 - sampleExpiringParams.issued_at))) :=
  ⟨⟨rfl, by decide⟩,
    claim2_sync_twice_amended sampleExpiringParams 10000000000 3600 rfl (by decide)⟩

/-- C3: on a terminal HTTP response the resume function classifies by
status class (2xx attempts the success-params JSON shape, any other
status the error-params JSON shape), and a JSON failure on either path
produces a parse-error outcome distinct from both the success outcome
and the server-reported grant-error outcome. -/
theorem claim3_resume_classification
    (ps : List Nat → Except SerdeError IssueAccessTokenSuccessParams)
    (pe : List Nat → Except SerdeError IssueAccessTokenErrorParams)
    (resp : HttpResponse) :
    (isSuccessStatus resp.status = true →
      (∀ r, ps resp.body = .ok r →
        sendAccessTokenRequestResume ps pe (.ok resp) = .ok (.ok (.ok r))) ∧
      (∀ err, ps resp.body = .error err →
        sendAccessTokenRequestResume ps pe (.ok resp) = .ok (.error err))) ∧
    (isSuccessStatus resp.status = false →
      (∀ r, pe resp.body = .ok r →
        sendAccessTokenRequestResume ps pe (.ok resp) = .ok (.ok (.error r))) ∧
      (∀ err, pe resp.body = .error err →
        sendAccessTokenRequestResume ps pe (.ok resp) = .ok (.error err))) ∧
    (∀ (err : SerdeError) (r : IssueAccessTokenSuccessParams),
      (.ok (.error err) : ResumeResult) ≠ .ok (.ok (.ok r))) ∧
    (∀ (err : SerdeError) (ge : IssueAccessTokenErrorParams),
      (.ok (.error err) : ResumeResult) ≠ .ok (.ok (.error ge))) := by
  refine ⟨?_, ?_, ?_, ?_⟩
  · intro hs
    constructor
    · intro r hr
      simp [sendAccessTokenRequestResume, hs, hr]
    · intro err herr
      simp [sendAccessTokenRequestResume, hs, herr]
  · intro hs
    constructor
    · intro r hr
      simp [sendAccessTokenRequestResume, hs, hr]
    · intro err herr
      simp [sendAccessTokenRequestResume, hs, herr]
  · intro err r h
    simp at h
  · intro err ge h
    simp at h

/-- C3, witness: a 200 response whose body parses as success params. -/
theorem claim3_resume_classification_witness :
    (isSuccessStatus (200 : Nat) = true ∧
      sampleParseSuccess [] = .ok sampleSuccessParams) ∧
    sendAccessTokenRequestResume sampleParseSuccess sampleParseErr
      (.ok { status := 200, body := [] })
      = .ok (.ok (.ok sampleSuccessParams)) :=
  ⟨⟨rfl, rfl⟩,
    ((claim3_resume_classification sampleParseSuccess sampleParseErr
      { status := 200, body := [] }).1 rfl).1 sampleSuccessParams rfl⟩

/-- C4: a single `sync_expires_in` call leaves the params untouched when
`expires_in` is absent or `issued_at` lies in the future; otherwise it
stores `expires_in` minus the whole elapsed seconds, floored at zero. -/
theorem claim4_sync_expires_in_single (p : IssueAccessTokenSuccessParams) (now : Nat) :
    (p.expires_in = none → syncExpiresIn p now = p) ∧
    (now < p.issued_at → syncExpiresIn p now = p) ∧
    (∀ e, p.expires_in = some e → p.issued_at ≤ now →
      (syncExpiresIn p now).expires_in
          = some (e - durationAsSecs (now - p.issued_at)) ∧
      (e ≤ durationAsSecs (now - p.issued_at) →
        (syncExpiresIn p now).expires_in = some 0)) := by
  refine ⟨?_, ?_, ?_⟩
  · intro h
    unfold syncExpiresIn
    rw [h]
  · intro h
    unfold syncExpiresIn
    cases he : p.expires_in with
    | none => rfl
    | some e =>
      unfold systemTimeElapsed
      rw [if_neg (by omega)]
  · intro e he hle
    unfold syncExpiresIn systemTimeElapsed
    rw [he, if_pos hle]
    simp only [Option.some.injEq]
    constructor
    · omega
    · intro h
      omega

/-- C4, witness at `expires_in = 3600`, `issued_at = 0`, observed at
t = 10 s: the synced value is 3590. -/
theorem claim4_sync_expires_in_single_witness :
    (sampleExpiringParams.expires_in = some 3600
      ∧ sampleExpiringParams.issued_at ≤ 10000000000) ∧
    (syncExpiresIn sampleExpiringParams 10000000000).expires_in
      = some (3600 - durationAsSecs (10000000000 - sampleExpiringParams.issued_at)) :=
  ⟨⟨rfl, by decide⟩,
    ((claim4_sync_expires_in_single sampleExpiringParams
      10000000000).2.2 3600 rfl (by decide)).1⟩

/-- C5, counterexample: the claim states that parsing a text of valid
alphabet bytes whose length falls outside [43,128] does not produce a
verifier, but `from_str` checks only the alphabet: the 3-byte text
`abc` parses successfully. -/
theorem claim5_parse_length_counterexample :
    pkceCodeVerifierFromStr (strBytes (r"abc")) = .ok (strBytes (r"abc")) ∧
    (strBytes (r"abc")).length = 3 := by
  constructor
  · rfl
  · rfl

/-- C5, amended: verifiers produced by `new` and `default` have length
in [43,128] (indeed in [43,66]) and consist of alphabet bytes; `from_str`
validates that every byte is in the unreserved alphabet — failing with an
offending byte otherwise — but does not check the length, so parsed
verifiers satisfy the alphabet invariant yet may have any length. -/
theorem claim5_verifier_invariant_amended (perm : List Nat) (size : Nat)
    (hp : perm.Perm (List.range UNRESERVED.length)) :
    (43 ≤ (pkceCodeVerifierNew perm size).length ∧
      (pkceCodeVerifierNew perm size).length ≤ 128 ∧
      ∀ b ∈ pkceCodeVerifierNew perm size, b ∈ UNRESERVED) ∧
    ((pkceCodeVerifierDefault perm).length = 43 ∧
      ∀ b ∈ pkceCodeVerifierDefault perm, b ∈ UNRESERVED) ∧
    (∀ s out, pkceCodeVerifierFromStr s = .ok out →
      out = s ∧ ∀ b ∈ out, b ∈ UNRESERVED) ∧
    (∀ s b, pkceCodeVerifierFromStr s = .error b → b ∉ UNRESERVED ∧ b ∈ s) := by
  have hlen := chooseMultiple_length UNRESERVED perm
  refine ⟨⟨?_, ?_, ?_⟩, ⟨?_, ?_⟩, ?_, ?_⟩
  · unfold pkceCodeVerifierNew
    rw [hlen _ hp, unreserved_length]
    omega
  · unfold pkceCodeVerifierNew
    rw [hlen _ hp, unreserved_length]
    omega
  · exact chooseMultiple_mem UNRESERVED perm _ hp
  · unfold pkceCodeVerifierDefault
    rw [hlen _ hp, unreserved_length]
    omega
  · exact chooseMultiple_mem UNRESERVED perm _ hp
  · intro s out h
    unfold pkceCodeVerifierFromStr at h
    cases hf : findInvalidByte s with
    | some b => rw [hf] at h; cases h
    | none =>
      rw [hf] at h
      obtain rfl : s = out := by simpa using h
      exact ⟨rfl, findInvalidByte_none s hf⟩
  · intro s b h
    unfold pkceCodeVerifierFromStr at h
    cases hf : findInvalidByte s with
    | some c =>
      rw [hf] at h
      obtain rfl : c = b := by simpa using h
      exact findInvalidByte_some s c hf
    | none => rw [hf] at h; cases h

/-- C5, amended, witness at the identity permutation and requested
length 0 (clamped to 43). -/
theorem claim5_verifier_invariant_amended_witness :
    (List.range 66).Perm (List.range UNRESERVED.length) ∧
    (43 ≤ (pkceCodeVerifierNew (List.range 66) 0).length ∧
      (pkceCodeVerifierNew (List.range 66) 0).length ≤ 128 ∧
      ∀ b ∈ pkceCodeVerifierNew (List.range 66) 0, b ∈ UNRESERVED) :=
  ⟨List.Perm.refl _,
    (claim5_verifier_invariant_amended (List.range 66) 0 (List.Perm.refl _)).1⟩

set_option maxRecDepth 8000 in
/-- C7: `PkceCodeChallenge::encode` is a pure function of the method and
the verifier bytes: the `plain` method returns exactly the verifier bytes
(`abc123` encodes to `abc123`, no hashing), and `S256` returns the
base64url-no-pad encoding of the SHA-256 digest of the verifier bytes
(checked on the concrete vector `abc123`); equal inputs give equal
output. -/
theorem claim7_pkce_challenge_encode :
    (∀ v, pkceCodeChallengeEncode { method := .plain, verifier := v } = v) ∧
    pkceCodeChallengeEncode { method := .plain, verifier := strBytes (r"abc123") }
      = strBytes (r"abc123") ∧
    (∀ v, pkceCodeChallengeEncode { method := .s256, verifier := v }
      = base64UrlNoPad (sha256 v)) ∧
    pkceCodeChallengeEncode { method := .s256, verifier := strBytes (r"abc123") }
      = strBytes (r"bKE9UspwyIPg8LsQHkJaiehiTeUdstI5JZOvaoQRgJA") ∧
    (∀ (c1 c2 : PkceCodeChallenge), c1.method = c2.method →
      c1.verifier = c2.verifier →
      pkceCodeChallengeEncode c1 = pkceCodeChallengeEncode c2) := by
  refine ⟨fun v => rfl, rfl, fun v => rfl, by decide, ?_⟩
  intro c1 c2 h1 h2
  obtain ⟨m1, v1⟩ := c1
  obtain ⟨m2, v2⟩ := c2
  simp only at h1 h2
  subst h1
  subst h2
  rfl

/-- C7, witness: the determinism clause applied at the concrete `S256`
challenge for verifier `abc123`. -/
theorem claim7_pkce_challenge_encode_witness :
    (({ method := .s256, verifier := strBytes (r"abc123") }
        : PkceCodeChallenge).method
      = ({ method := .s256, verifier := strBytes (r"abc123") }
        : PkceCodeChallenge).method) ∧
    pkceCodeChallengeEncode { method := .s256, verifier := strBytes (r"abc123") }
      = pkceCodeChallengeEncode { method := .s256, verifier := strBytes (r"abc123") } :=
  ⟨rfl, claim7_pkce_challenge_encode.2.2.2.2 _ _ rfl rfl⟩

/-- C8: after construction, `resume` of the refresh coroutine is
behaviorally identical to `resume` of the access-token coroutine: for
every outcome of the inner HTTP coroutine (pending I/O or terminal
response) and every pair of JSON parsers, the two functions return the
same result. -/
theorem claim8_refresh_equals_send
    (ps : List Nat → Except SerdeError IssueAccessTokenSuccessParams)
    (pe : List Nat → Except SerdeError IssueAccessTokenErrorParams)
    (inner : Except IoOp HttpResponse) :
    refreshAccessTokenResume ps pe inner = sendAccessTokenRequestResume ps pe inner := rfl

/-- C10: `new` samples the alphabet without replacement: the verifier
never repeats a byte, its length never exceeds 66, and for any requested
length of 66 or more it is a permutation of the entire 66-byte
unreserved alphabet. -/
theorem claim10_sample_without_replacement (perm : List Nat) (size : Nat)
    (hp : perm.Perm (List.range UNRESERVED.length)) :
    (pkceCodeVerifierNew perm size).Nodup ∧
    (pkceCodeVerifierNew perm size).length ≤ 66 ∧
    (66 ≤ size → (pkceCodeVerifierNew perm size).Perm UNRESERVED) := by
  refine ⟨chooseMultiple_nodup _ _ _ hp unreserved_nodup, ?_, ?_⟩
  · unfold pkceCodeVerifierNew
    rw [chooseMultiple_length _ _ _ hp, unreserved_length]
    omega
  · intro h66
    apply chooseMultiple_perm _ _ _ hp
    rw [unreserved_length]
    omega

/-- C6: `to_form_url_encoded_string` emits exactly the pairs
`response_type=code`, `client_id`, then `state` (iff set), then
`redirect_uri` (iff set), then `scope` (iff non-empty, the tokens joined
by single spaces in enumeration order), then `code_challenge` and
`code_challenge_method` (iff a PKCE challenge is set), in this order and
no others — splitting the output on `&` yields precisely those encoded
pairs; on scenario A (client id `cid`, scope `{read, write}`, state
`s1`, no PKCE) it yields
`response_type=code&client_id=cid&state=s1&scope=read+write`. -/
theorem claim6_auth_request_encoding (p : AuthorizationRequestParams) :
    (toFormUrlEncodedString p).splitOn 38
      = (([(strBytes (r"response_type"), strBytes (r"code")),
          (strBytes (r"client_id"), p.client_id)]
        ++ (match p.state with
            | some s => [(strBytes (r"state"), s)]
            | none => [])
        ++ (match p.redirect_uri with
            | some u => [(strBytes (r"redirect_uri"), u)]
            | none => [])
        ++ (if p.scope = [] then []
            else [(strBytes (r"scope"), List.intercalate [32] p.scope)])
        ++ (match p.pkce_code_challenge with
            | some c => [(strBytes (r"code_challenge"), pkceCodeChallengeEncode c),
                (strBytes (r"code_challenge_method"),
                  pkceCodeChallengeMethodAsStr c.method)]
            | none => [])).map fun kv => appendPairBytes kv.1 kv.2) ∧
    toFormUrlEncodedString sampleAuthRequestParams
      = strBytes (r"response_type=code&client_id=cid&state=s1&scope=read+write") := by
  constructor
  · have hscope : (if p.scope.isEmpty then []
        else [(strBytes (r"scope"), spaceJoinGlueLoop p.scope)])
        = (if p.scope = [] then []
        else [(strBytes (r"scope"), List.intercalate [32] p.scope)]) := by
      by_cases h : p.scope = []
      · simp [h]
      · rw [if_neg (by simpa using h), if_neg h,
          spaceJoinGlueLoop_eq_intercalate _ h]
    have hpairs : authorizationRequestPairs p
        = ([(strBytes (r"response_type"), strBytes (r"code")),
          (strBytes (r"client_id"), p.client_id)]
        ++ (match p.state with
            | some s => [(strBytes (r"state"), s)]
            | none => [])
        ++ (match p.redirect_uri with
            | some u => [(strBytes (r"redirect_uri"), u)]
            | none => [])
        ++ (if p.scope = [] then []
            else [(strBytes (r"scope"), List.intercalate [32] p.scope)])
        ++ (match p.pkce_code_challenge with
            | some c => [(strBytes (r"code_challenge"), pkceCodeChallengeEncode c),
                (strBytes (r"code_challenge_method"),
                  pkceCodeChallengeMethodAsStr c.method)]
            | none => [])) := by
      unfold authorizationRequestPairs
      rw [hscope]
      rfl
    have hno : ∀ l ∈ (authorizationRequestPairs p).map
        (fun kv => appendPairBytes kv.1 kv.2), (38 : Nat) ∉ l := by
      intro l hl
      obtain ⟨kv, -, rfl⟩ := List.mem_map.mp hl
      exact amp_not_mem_appendPairBytes kv.1 kv.2
    have hne : (authorizationRequestPairs p).map
        (fun kv => appendPairBytes kv.1 kv.2) ≠ [] := by
      simp [authorizationRequestPairs]
    rw [toFormUrlEncodedString, List.splitOn_intercalate _ 38 hno hne, hpairs]
  · decide

/-- C9: decoding the encoded query splits it back into the emitted
pairs with the original raw key and value bytes — in particular the
original client id, the original state value (when set; assumed ASCII,
where `from_utf8_lossy` is the identity) — and splitting the decoded
scope value on spaces reproduces the original scope set, provided the
scope tokens are non-empty and space-free. -/
theorem claim9_round_trip (p : AuthorizationRequestParams)
    (hwf : ∀ kv ∈ authorizationRequestPairs p,
      (∀ b ∈ kv.1, b < 256) ∧ (∀ b ∈ kv.2, b < 256))
    (hscope : ∀ t ∈ p.scope, t ≠ [] ∧ (32 : Nat) ∉ t)
    (_hstate : ∀ s, p.state = some s → ∀ b ∈ s, b < 128) :
    ((toFormUrlEncodedString p).splitOn 38).map
        (fun seg => (seg.splitOn 61).map percentDecode)
      = (authorizationRequestPairs p).map (fun kv => [kv.1, kv.2]) ∧
    (p.scope ≠ [] → (spaceJoinGlueLoop p.scope).splitOn 32 = p.scope) ∧
    (∀ s, p.state = some s →
      [strBytes (r"state"), s]
        ∈ (authorizationRequestPairs p).map (fun kv => [kv.1, kv.2])) := by
  refine ⟨?_, ?_, ?_⟩
  · have hno : ∀ l ∈ (authorizationRequestPairs p).map
        (fun kv => appendPairBytes kv.1 kv.2), (38 : Nat) ∉ l := by
      intro l hl
      obtain ⟨kv, -, rfl⟩ := List.mem_map.mp hl
      exact amp_not_mem_appendPairBytes kv.1 kv.2
    have hne : (authorizationRequestPairs p).map
        (fun kv => appendPairBytes kv.1 kv.2) ≠ [] := by
      simp [authorizationRequestPairs]
    rw [toFormUrlEncodedString, List.splitOn_intercalate _ 38 hno hne,
      List.map_map]
    apply List.map_congr_left
    intro kv hkv
    simp only [Function.comp_apply]
    rw [appendPairBytes_splitOn]
    simp only [List.map_cons, List.map_nil]
    rw [percentDecode_formUrlEncode _ (hwf kv hkv).1,
      percentDecode_formUrlEncode _ (hwf kv hkv).2]
  · intro h
    rw [spaceJoinGlueLoop_eq_intercalate _ h]
    exact List.splitOn_intercalate _ 32 (fun t ht => (hscope t ht).2) h
  · intro s hs
    apply List.mem_map.mpr
    refine ⟨(strBytes (r"state"), s), ?_, rfl⟩
    simp [authorizationRequestPairs, hs, fromUtf8Lossy, stateExpose]

/-- C9, witness on scenario A. -/
theorem claim9_round_trip_witness :
    ((∀ kv ∈ authorizationRequestPairs sampleAuthRequestParams,
      (∀ b ∈ kv.1, b < 256) ∧ (∀ b ∈ kv.2, b < 256)) ∧
    (∀ t ∈ sampleAuthRequestParams.scope, t ≠ [] ∧ (32 : Nat) ∉ t) ∧
    (∀ s, sampleAuthRequestParams.state = some s → ∀ b ∈ s, b < 128)) ∧
    (((toFormUrlEncodedString sampleAuthRequestParams).splitOn 38).map
        (fun seg => (seg.splitOn 61).map percentDecode)
      = (authorizationRequestPairs sampleAuthRequestParams).map
          (fun kv => [kv.1, kv.2]) ∧
    (sampleAuthRequestParams.scope ≠ [] →
      (spaceJoinGlueLoop sampleAuthRequestParams.scope).splitOn 32
        = sampleAuthRequestParams.scope) ∧
    (∀ s, sampleAuthRequestParams.state = some s →
      [strBytes (r"state"), s]
        ∈ (authorizationRequestPairs sampleAuthRequestParams).map
            (fun kv => [kv.1, kv.2]))) :=
  ⟨⟨by decide, by decide, by decide⟩,
    claim9_round_trip sampleAuthRequestParams
      (by decide) (by decide) (by decide)⟩

/-- C10, witness at the identity permutation and requested length 128:
the verifier is a duplicate-free permutation of the whole alphabet. -/
theorem claim10_sample_without_replacement_witness :
    (List.range 66).Perm (List.range UNRESERVED.length) ∧
    ((pkceCodeVerifierNew (List.range 66) 128).Nodup ∧
      (pkceCodeVerifierNew (List.range 66) 128).length ≤ 66 ∧
      (66 ≤ 128 → (pkceCodeVerifierNew (List.range 66) 128).Perm UNRESERVED)) :=
  ⟨List.Perm.refl _,
    claim10_sample_without_replacement (List.range 66) 128 (List.Perm.refl _)⟩

end IoOauth
